import Mathlib

/-!
# Verification of the `dyn_quantity` string-to-quantity parser

This file is a shallow embedding, in Lean 4, of the Rust crate `dyn_quantity`:

* `Unit` (src/src/unit/mod.rs): seven signed integer exponents over the SI
  base dimensions, with component-wise multiplication / division,
  integer powers (`powi`) and a fallible `n`-th root (`try_nthroot`).
* `DynQuantity` (src/src/quantity/mod.rs): a numeric value paired with a
  `Unit`, with checked addition/subtraction and unchecked
  multiplication/division.
* The lexer (src/dyn_quantity_lexer/src/lib.rs): a `logos`-generated
  maximal-munch lexer; the declarative regex rules and their callbacks are
  translated rule by rule.
* The expression evaluator `from_str_complexf64` (src/src/from_str.rs):
  the token loop with its active quantity, operation stack, bracket level,
  previous-token class and pending-division flag.

## Modelling conventions

* Rust `f64` values are modelled by `EF`: either an exact rational number,
  `+inf`, `-inf` or `NaN`.  Arithmetic on finite values is exact rational
  arithmetic (no rounding); the special values follow the IEEE rules the
  Rust code relies on (`0 * inf = NaN`, `inf + -inf = NaN`, `NaN`
  propagation, ...).  The negative zero `-0.0` is not modelled.  Quantities
  in the claims under verification only involve values on which `f64`
  arithmetic is exact, so no claim depends on rounding.
* Decimal literals of the Rust source (`273.15`, `1e-2`, `1.0/60.0`,
  `std::f64::consts::PI`) are modelled by the corresponding exact
  rationals; for `PI` the exact rational value of the `f64` constant is
  used.  None of the claims exercises these constants.
* `Complex<f64>` is `EC`, a pair of `EF`s; its arithmetic follows the
  `num-complex` implementations used by the crate (component formulas of
  `Mul`, `Div`, `AddAssign<T>`, `MulAssign<T>`, `inv`, `powi`).
* `i32` unit exponents are modelled by `Int`.  The exponent arithmetic of
  `Unit` (`mul`, `div`, `powi` — Rust `+=`, `-=`, `*=` on `i32`) wraps
  into the `i32` range via `wrap32`, as Rust release builds do on
  overflow (debug builds panic instead of wrapping).  The per-token
  exponent accumulation of the evaluator and the integer literals of the
  lexer are kept as unbounded `Int`; no claim depends on overflow there.
  The `%` operator of Rust on `i32` is truncated remainder (`Int.tmod`)
  and `/` is truncated division (`Int.tdiv`); remainder by zero panics in
  Rust, which the model represents by `Option.none` ("aborts").
* The `&mut self` methods (`try_add_assign`, ...) are modelled by explicit
  state passing: they return the final value of `self` together with the
  optional error, so that "self is left unmodified on error" is a provable
  statement rather than a modelling artifact.
-/

namespace DynQ

/-! ## Exact rationals

Finite `f64` values are modelled by exact rationals.  They are represented
by explicit numerator/denominator pairs (denominator kept positive, not
necessarily reduced) rather than by Mathlib's `Rat`, so that the kernel
can evaluate parser runs; every value occurring in the claims is an
integer or an exact decimal, where the representation below is
canonical. -/

/-- An exact rational: numerator and (positive) denominator. -/
structure Q where
  num : Int
  den : Int
deriving DecidableEq, Repr

namespace Q

/-- Embed an integer. -/
def ofInt (n : Int) : Q := ⟨n, 1⟩

instance : OfNat Q n := ⟨⟨(n : Int), 1⟩⟩

instance : Neg Q := ⟨fun a => ⟨-a.num, a.den⟩⟩

/-- Rational addition (cross-multiplied). -/
def add (a b : Q) : Q := ⟨a.num * b.den + b.num * a.den, a.den * b.den⟩

/-- Rational subtraction. -/
def sub (a b : Q) : Q := ⟨a.num * b.den - b.num * a.den, a.den * b.den⟩

/-- Rational multiplication. -/
def mul (a b : Q) : Q := ⟨a.num * b.num, a.den * b.den⟩

/-- Rational division, keeping the denominator positive. -/
def div (a b : Q) : Q :=
  if 0 ≤ b.num then ⟨a.num * b.den, a.den * b.num⟩
  else ⟨-(a.num * b.den), a.den * -b.num⟩

/-- Natural power. -/
def powNat (a : Q) (n : Nat) : Q := ⟨a.num ^ n, a.den ^ n⟩

/-- Integer power (the inverse of the positive power for negative
exponents; zero to a negative power is irrelevant here and mapped to
zero). -/
def zpow (a : Q) (n : Int) : Q :=
  if 0 ≤ n then a.powNat n.toNat
  else
    let p := a.powNat n.natAbs
    if p.num = 0 then ⟨0, 1⟩
    else if 0 ≤ p.num then ⟨p.den, p.num⟩
    else ⟨-p.den, -p.num⟩

/-- The value is zero. -/
def isZero (a : Q) : Bool := a.num == 0

/-- The value is (strictly) positive. -/
def isPos (a : Q) : Bool := 0 < a.num

/-- The value is (strictly) negative. -/
def isNeg (a : Q) : Bool := a.num < 0

end Q

/-! ## Extended floats: the `f64` model -/

/-- Model of a Rust `f64`: an exact rational, `+inf`, `-inf`, or `NaN`.
(`-0.0` is identified with `0`.) -/
inductive EF where
  | fin (q : Q)
  | pinf
  | ninf
  | nan
deriving DecidableEq, Repr

namespace EF

/-- `f64::is_zero` / `== 0.0`: true exactly on (plus or minus) zero. -/
def isZero : EF → Bool
  | .fin q => q.isZero
  | _ => false

/-- `f64::is_infinite`. -/
def isInfinite : EF → Bool
  | .pinf => true
  | .ninf => true
  | _ => false

/-- `f64::is_nan`. -/
def isNaN : EF → Bool
  | .nan => true
  | _ => false

/-- IEEE negation. -/
def neg : EF → EF
  | .fin q => .fin (-q)
  | .pinf => .ninf
  | .ninf => .pinf
  | .nan => .nan

/-- IEEE addition (exact on finite values; `inf + -inf = NaN`; `NaN`
propagates). -/
def add : EF → EF → EF
  | .nan, _ => .nan
  | _, .nan => .nan
  | .fin a, .fin b => .fin (a.add b)
  | .pinf, .ninf => .nan
  | .ninf, .pinf => .nan
  | .pinf, _ => .pinf
  | _, .pinf => .pinf
  | .ninf, _ => .ninf
  | _, .ninf => .ninf

/-- IEEE subtraction, `a - b = a + (-b)`. -/
def sub (a b : EF) : EF := a.add b.neg

/-- IEEE multiplication (exact on finite values; `0 * inf = NaN`; `NaN`
propagates; infinities keep the sign rule). -/
def mul : EF → EF → EF
  | .nan, _ => .nan
  | _, .nan => .nan
  | .fin a, .fin b => .fin (a.mul b)
  | .fin a, .pinf => if a.isZero then .nan else if a.isPos then .pinf else .ninf
  | .fin a, .ninf => if a.isZero then .nan else if a.isPos then .ninf else .pinf
  | .pinf, .fin b => if b.isZero then .nan else if b.isPos then .pinf else .ninf
  | .ninf, .fin b => if b.isZero then .nan else if b.isPos then .ninf else .pinf
  | .pinf, .pinf => .pinf
  | .pinf, .ninf => .ninf
  | .ninf, .pinf => .ninf
  | .ninf, .ninf => .pinf

/-- IEEE division (without `-0.0`: a finite value divided by zero gives a
signed infinity by the sign of the dividend, `0/0 = NaN`,
`inf/inf = NaN`, finite `/ inf = 0`). -/
def div : EF → EF → EF
  | .nan, _ => .nan
  | _, .nan => .nan
  | .fin a, .fin b =>
      if b.isZero then
        (if a.isZero then .nan else if a.isPos then .pinf else .ninf)
      else .fin (a.div b)
  | .fin _, .pinf => .fin 0
  | .fin _, .ninf => .fin 0
  | .pinf, .fin b => if !b.isNeg then .pinf else .ninf
  | .ninf, .fin b => if !b.isNeg then .ninf else .pinf
  | .pinf, .pinf => .nan
  | .pinf, .ninf => .nan
  | .ninf, .pinf => .nan
  | .ninf, .ninf => .nan

/-- Rust `f64::signum`: `1.0` for positive values and `+0.0`, `-1.0` for
negative values, `NaN` for `NaN`. -/
def signum : EF → EF
  | .fin q => .fin (if q.isNeg then -1 else 1)
  | .pinf => .fin 1
  | .ninf => .fin (-1)
  | .nan => .nan

end EF

/-! ## Complex numbers: the `Complex<f64>` model -/

/-- Model of `num::Complex<f64>`. -/
structure EC where
  re : EF
  im : EF
deriving DecidableEq, Repr

namespace EC

/-- `Complex::new(1.0, 0.0)`. -/
def one : EC := ⟨.fin 1, .fin 0⟩

/-- Componentwise addition (`Add for Complex`). -/
def add (a b : EC) : EC := ⟨a.re.add b.re, a.im.add b.im⟩

/-- Componentwise subtraction (`Sub for Complex`). -/
def sub (a b : EC) : EC := ⟨a.re.sub b.re, a.im.sub b.im⟩

/-- `Mul for Complex`: `re = a.re*b.re - a.im*b.im`,
`im = a.re*b.im + a.im*b.re`. -/
def mul (a b : EC) : EC :=
  ⟨(a.re.mul b.re).sub (a.im.mul b.im), (a.re.mul b.im).add (a.im.mul b.re)⟩

/-- `Div for Complex` (num-complex): divide the product with the conjugate
by the squared norm of the divisor, component-wise. -/
def div (a b : EC) : EC :=
  let normSqr := (b.re.mul b.re).add (b.im.mul b.im)
  ⟨((a.re.mul b.re).add (a.im.mul b.im)).div normSqr,
   ((a.im.mul b.re).sub (a.re.mul b.im)).div normSqr⟩

/-- `Complex::inv`: conjugate divided by the squared norm. -/
def inv (a : EC) : EC :=
  let normSqr := (a.re.mul a.re).add (a.im.mul a.im)
  ⟨a.re.div normSqr, (a.im.neg).div normSqr⟩

/-- `MulAssign<f64> for Complex`: scale both components. -/
def scale (a : EC) (s : EF) : EC := ⟨a.re.mul s, a.im.mul s⟩

/-- `AddAssign<f64> for Complex`: add to the real component only. -/
def addRe (a : EC) (s : EF) : EC := ⟨a.re.add s, a.im⟩

/-- Natural power by repeated multiplication.  num-complex computes this
product by square-and-multiply (`powu`); on the exact finite values at
which the parser ever raises to a power the two coincide. -/
def powNat (z : EC) : Nat → EC
  | 0 => one
  | n + 1 => z.mul (z.powNat n)

/-- `Complex::powi`: for a negative exponent, the positive power of the
value is inverted. -/
def powi (z : EC) (n : Int) : EC :=
  if n < 0 then (z.powNat n.natAbs).inv else z.powNat n.toNat

/-- `ComplexFloat::is_nan` for `Complex`: a component is `NaN`. -/
def isNaN (a : EC) : Bool := a.re.isNaN || a.im.isNaN

/-- `ComplexFloat::is_infinite` for `Complex`: not `NaN` and a component is
infinite. -/
def isInfinite (a : EC) : Bool :=
  !a.isNaN && (a.re.isInfinite || a.im.isInfinite)

end EC

/-! ## `Unit` (src/src/unit/mod.rs) -/

/-- `Unit`: the seven SI base-dimension exponents (`i32` in the source,
modelled by `Int`). -/
structure Unit where
  second : Int
  meter : Int
  kilogram : Int
  ampere : Int
  kelvin : Int
  mol : Int
  candela : Int
deriving DecidableEq, Repr

instance : Inhabited Unit := ⟨⟨0, 0, 0, 0, 0, 0, 0⟩⟩

/-- Wrap an integer into the `i32` range `[-2^31, 2^31)` (two's
complement), which is what Rust `i32` arithmetic does on overflow in
release builds; debug builds panic there instead of wrapping. -/
def wrap32 (x : Int) : Int := (x + 2 ^ 31) % 2 ^ 32 - 2 ^ 31

namespace Unit

/-- `MulAssign for Unit`: component-wise `i32` sum of the exponents
(wrapping at the `i32` boundary). -/
def mul (u v : Unit) : Unit :=
  ⟨wrap32 (u.second + v.second), wrap32 (u.meter + v.meter),
   wrap32 (u.kilogram + v.kilogram), wrap32 (u.ampere + v.ampere),
   wrap32 (u.kelvin + v.kelvin), wrap32 (u.mol + v.mol),
   wrap32 (u.candela + v.candela)⟩

/-- `DivAssign for Unit`: component-wise `i32` difference of the
exponents (wrapping at the `i32` boundary). -/
def div (u v : Unit) : Unit :=
  ⟨wrap32 (u.second - v.second), wrap32 (u.meter - v.meter),
   wrap32 (u.kilogram - v.kilogram), wrap32 (u.ampere - v.ampere),
   wrap32 (u.kelvin - v.kelvin), wrap32 (u.mol - v.mol),
   wrap32 (u.candela - v.candela)⟩

/-- `Unit::powi`: every exponent is multiplied by `n` in `i32`
arithmetic (wrapping at the `i32` boundary). -/
def powi (u : Unit) (n : Int) : Unit :=
  ⟨wrap32 (u.second * n), wrap32 (u.meter * n), wrap32 (u.kilogram * n),
   wrap32 (u.ampere * n), wrap32 (u.kelvin * n), wrap32 (u.mol * n),
   wrap32 (u.candela * n)⟩

/-- `Unit::is_dimensionless`. -/
def is_dimensionless (u : Unit) : Bool :=
  u.second == 0 && u.meter == 0 && u.kilogram == 0 && u.ampere == 0 &&
  u.kelvin == 0 && u.mol == 0 && u.candela == 0

end Unit

/-- `RootError` (src/src/error.rs): the root index and the offending unit. -/
structure RootError where
  n : Int
  unit : Unit
deriving DecidableEq, Repr

/-- The helper `try_nthroot_inner` of `Unit::try_nthroot`: Rust's
`exp % n` / `exp / n` are truncated remainder and division; the remainder
panics when `n = 0`, which the model represents by `none`. -/
def try_nthroot_inner (u : Unit) (exp n : Int) : Option (Except RootError Int) :=
  if n = 0 then none
  else if exp.tmod n = 0 then some (.ok (exp.tdiv n))
  else some (.error ⟨n, u⟩)

/-- `Unit::try_nthroot`: each exponent through `try_nthroot_inner` in field
order, with the original unit as the error payload.  `none` models a panic
(remainder by zero). -/
def Unit.try_nthroot (u : Unit) (n : Int) : Option (Except RootError Unit) := do
  let init_exp := u
  match ← try_nthroot_inner init_exp u.second n with
  | .error e => some (.error e)
  | .ok second => match ← try_nthroot_inner init_exp u.meter n with
  | .error e => some (.error e)
  | .ok meter => match ← try_nthroot_inner init_exp u.kilogram n with
  | .error e => some (.error e)
  | .ok kilogram => match ← try_nthroot_inner init_exp u.ampere n with
  | .error e => some (.error e)
  | .ok ampere => match ← try_nthroot_inner init_exp u.kelvin n with
  | .error e => some (.error e)
  | .ok kelvin => match ← try_nthroot_inner init_exp u.mol n with
  | .error e => some (.error e)
  | .ok mol => match ← try_nthroot_inner init_exp u.candela n with
  | .error e => some (.error e)
  | .ok candela =>
      some (.ok ⟨second, meter, kilogram, ampere, kelvin, mol, candela⟩)

/-! ## `DynQuantity` (src/src/quantity/mod.rs) -/

/-- `UnitsNotEqual` (src/src/error.rs): the two units involved. -/
structure UnitsNotEqual where
  fst : Unit
  snd : Unit
deriving DecidableEq, Repr

/-- `DynQuantity<V>`: a value paired with a unit.  The value type is kept
generic exactly as in the source (`V: F64RealOrComplex`). -/
structure DynQuantity (α : Type) where
  value : α
  unit : Unit
deriving DecidableEq, Repr

namespace DynQuantity

/-- `DynQuantity::try_add_assign`, with the mutation made explicit: the
first component of the result is the final value of `self`, the second the
optional error. -/
def try_add_assign [Add α] (self other : DynQuantity α) :
    DynQuantity α × Option UnitsNotEqual :=
  if self.unit = other.unit then
    (⟨self.value + other.value, self.unit⟩, none)
  else
    (self, some ⟨self.unit, other.unit⟩)

/-- `DynQuantity::try_sub_assign`, mutation made explicit as above. -/
def try_sub_assign [Sub α] (self other : DynQuantity α) :
    DynQuantity α × Option UnitsNotEqual :=
  if self.unit = other.unit then
    (⟨self.value - other.value, self.unit⟩, none)
  else
    (self, some ⟨self.unit, other.unit⟩)

/-- `DynQuantity::try_add`: clone, then `try_add_assign`. -/
def try_add [Add α] (self other : DynQuantity α) :
    Except UnitsNotEqual (DynQuantity α) :=
  match try_add_assign self other with
  | (output, none) => .ok output
  | (_, some e) => .error e

/-- `DynQuantity::try_sub`: clone, then `try_sub_assign`. -/
def try_sub [Sub α] (self other : DynQuantity α) :
    Except UnitsNotEqual (DynQuantity α) :=
  match try_sub_assign self other with
  | (output, none) => .ok output
  | (_, some e) => .error e

end DynQuantity

/-- The complex-valued quantity the evaluator works with. -/
abbrev QC := DynQuantity EC

instance : Add EC := ⟨EC.add⟩
instance : Sub EC := ⟨EC.sub⟩

namespace QC

/-- `MulAssign for DynQuantity` (used through `Mul`): values and units are
multiplied. -/
def mul (self rhs : QC) : QC :=
  ⟨self.value.mul rhs.value, self.unit.mul rhs.unit⟩

/-- `DivAssign for DynQuantity` (used through `Div`): when the dividend is
infinite, `NaN` components of the quotient are reset to zero. -/
def div (self rhs : QC) : QC :=
  let value :=
    if self.value.isInfinite then
      let v := self.value.div rhs.value
      let v := if v.re.isNaN then { v with re := .fin 0 } else v
      let v := if v.im.isNaN then { v with im := .fin 0 } else v
      v
    else
      self.value.div rhs.value
  ⟨value, self.unit.div rhs.unit⟩

/-- `DynQuantity::powi`: `value.powi(n)` and `unit.powi(n)`. -/
def powi (self : QC) (n : Int) : QC :=
  ⟨self.value.powi n, self.unit.powi n⟩

end QC

end DynQ

namespace DynQ

/-! ## The lexer (src/dyn_quantity_lexer/src/lib.rs)

The Rust lexer is generated by `logos` from declarative regex rules with
maximal-munch semantics (the rule with the longest match at the current
position wins; among equal-length matches the rule with the higher
priority wins).  Each rule below is translated as a pair of a
longest-match function for its regex and the token-building callback of
the source.  Whitespace (the `skip` regex `[ \t\n\f]+`) is dropped
between tokens. -/

/-- `Exponents` (the lexer crate): unit exponent and metric-prefix power.
The Rust field `prefix` is called `pfx` here (the original spelling is not
available as a Lean field name). -/
structure Exponents where
  unit : Int
  pfx : Int
deriving DecidableEq, Repr

/-- `Exponents::exponent`: the product of the unit exponent and the prefix
power. -/
def Exponents.exponent (e : Exponents) : Int := e.unit * e.pfx

/-- `Token`: the lexer's output alphabet. -/
inductive Token where
  | Real (v : Q)
  | Imag (v : Q)
  | PowerOfTen (e : Int)
  | Infinity
  | NegInfinity
  | LeftBracket
  | RightBracket (e : Int)
  | Add
  | Sub
  | Mul
  | Div
  | Percent
  | Second (e : Exponents)
  | Meter (e : Exponents)
  | Gram (e : Exponents)
  | Ampere (e : Exponents)
  | Kelvin (e : Exponents)
  | Mol (e : Exponents)
  | Candela (e : Exponents)
  | Celsius (e : Exponents)
  | Volt (e : Exponents)
  | Newton (e : Exponents)
  | NewtonMeter (e : Exponents)
  | Watt (e : Exponents)
  | Joule (e : Exponents)
  | Hertz (e : Exponents)
  | RotationsPerMinute (e : Exponents)
  | Weber (e : Exponents)
  | Tesla (e : Exponents)
  | Henry (e : Exponents)
  | Siemens (e : Exponents)
  | Ton (e : Exponents)
  | Ohm (e : Exponents)
  | Omega (e : Exponents)
  | Pi (e : Exponents)
  | Degree (e : Exponents)
  | Radians (e : Exponents)
deriving DecidableEq, Repr

/-- `LexingError`.  The Rust enum distinguishes `InvalidFloat`,
`InvalidInt` and `CouldNotParse`; the evaluator discards the payload and
maps every lexer error to `UnexpectedToken`, so a single variant
suffices. -/
inductive LexingError where
  | couldNotParse
deriving DecidableEq, Repr

/-- The `skip` regex `[ \t\n\f]+`: space, tab, newline, form feed. -/
def isSkipChar (c : Char) : Bool :=
  c = ' ' || c = '\t' || c = '\n' || c = '\x0c'

/-- The character class `[a-zA-Zµ]` (candidate metric-prefix position). -/
def isPfxClass (c : Char) : Bool :=
  ('a' ≤ c && c ≤ 'z') || ('A' ≤ c && c ≤ 'Z') || c = 'µ'

/-- Digits of a decimal literal to a natural number. -/
def digitsToNat (s : List Char) : Nat :=
  s.foldl (fun acc c => acc * 10 + (c.toNat - '0'.toNat)) 0

/-- `str::parse::<f64>` on a slice matched by `(\d*)((\.)?\d+)` — modelled
exactly (finite `f64` arithmetic is exact rational arithmetic in this
development). -/
def parseDecimal (s : List Char) : Option Q :=
  let intPart := s.takeWhile Char.isDigit
  let rest := s.dropWhile Char.isDigit
  match rest with
  | [] =>
      if intPart.isEmpty then none else some (Q.ofInt (digitsToNat intPart))
  | '.' :: frac =>
      if frac.isEmpty || !(frac.all Char.isDigit) then none
      else
        some ⟨(digitsToNat intPart : Int) * (10 : Int) ^ frac.length +
                (digitsToNat frac : Int),
              (10 : Int) ^ frac.length⟩
  | _ => none

/-- `str::parse::<i32>` on a slice of shape `-?\d+`. -/
def parseIntChars (s : List Char) : Option Int :=
  match s with
  | '-' :: rest =>
      if rest.isEmpty || !(rest.all Char.isDigit) then none
      else some (-(digitsToNat rest : Int))
  | _ =>
      if s.isEmpty || !(s.all Char.isDigit) then none
      else some (digitsToNat s : Int)

/-- Length of a `\^-?\d+` exponent suffix at the head of the input
(0 when the suffix is absent or incomplete). -/
def expSuffixLen (s : List Char) : Nat :=
  match s with
  | '^' :: rest =>
      let p := match rest with
        | '-' :: r => (1, r)
        | _ => (0, rest)
      let d := (p.2.takeWhile Char.isDigit).length
      if d > 0 then 1 + p.1 + d else 0
  | _ => 0

/-- Longest match of `(\d*)((\.)?\d+)` (the `Real` regex) at the head of
the input. -/
def matchReal (s : List Char) : Option Nat :=
  let d1 := (s.takeWhile Char.isDigit).length
  let after := s.drop d1
  match after with
  | '.' :: rest =>
      let d2 := (rest.takeWhile Char.isDigit).length
      if d2 > 0 then some (d1 + 1 + d2)
      else if d1 > 0 then some d1 else none
  | _ => if d1 > 0 then some d1 else none

/-- Longest match of `(\d*)(\.\d+)? ?i` / `... ?j` (the `Imag` regexes). -/
def matchImag (s : List Char) : Option Nat :=
  let d1 := (s.takeWhile Char.isDigit).length
  let after := s.drop d1
  let p : Nat × List Char := match after with
    | '.' :: rest =>
        let d2 := (rest.takeWhile Char.isDigit).length
        if d2 > 0 then (1 + d2, rest.drop d2) else (0, after)
    | _ => (0, after)
  let numLen := d1 + p.1
  match p.2 with
  | ' ' :: 'i' :: _ => some (numLen + 2)
  | ' ' :: 'j' :: _ => some (numLen + 2)
  | 'i' :: _ => some (numLen + 1)
  | 'j' :: _ => some (numLen + 1)
  | _ => none

/-- Longest match of `\* ?10\^-?\d+` or `e-?\d+` (the `PowerOfTen`
regexes). -/
def matchPowTen (s : List Char) : Option Nat :=
  match s with
  | 'e' :: rest =>
      let p := match rest with
        | '-' :: r => (1, r)
        | _ => (0, rest)
      let d := (p.2.takeWhile Char.isDigit).length
      if d > 0 then some (1 + p.1 + d) else none
  | '*' :: rest =>
      let q : Nat × List Char := match rest with
        | ' ' :: r => (1, r)
        | _ => (0, rest)
      match q.2 with
      | '1' :: '0' :: '^' :: r2 =>
          let p := match r2 with
            | '-' :: r => (1, r)
            | _ => (0, r2)
          let d := (p.2.takeWhile Char.isDigit).length
          if d > 0 then some (1 + q.1 + 3 + p.1 + d) else none
      | _ => none
  | _ => none

/-- Longest match among a list of fixed `#[token]` strings. -/
def matchFixed (cands : List (List Char)) (s : List Char) : Option Nat :=
  cands.foldl (fun best c =>
    if c.isPrefixOf s then
      match best with
      | some b => if c.length > b then some c.length else best
      | none => some c.length
    else best) none

/-- Longest match of `\)` or `\)\^-?\d+` (the `RightBracket` regexes). -/
def matchRightBracket (s : List Char) : Option Nat :=
  match s with
  | ')' :: rest => some (1 + expSuffixLen rest)
  | _ => none

/-- Longest match of `sym(\^-?\d+)?` at the head of the input. -/
def matchUnitCore (sym : List Char) (s : List Char) : Option Nat :=
  if sym.isPrefixOf s then
    some (sym.length + expSuffixLen (s.drop sym.length))
  else none

/-- Longest match of `[a-zA-Zµ]?sym(\^-?\d+)?` (the shape of every
unit-token regex pair): the longer of the prefixed and the unprefixed
match. -/
def matchUnit (sym : List Char) (s : List Char) : Option Nat :=
  let withPfx : Option Nat :=
    match s with
    | c :: rest =>
        if isPfxClass c then (matchUnitCore sym rest).map (· + 1) else none
    | [] => none
  match withPfx, matchUnitCore sym s with
  | some a, some b => some (max a b)
  | some a, none => some a
  | none, some b => some b
  | none, none => none

/-- Longest match of `[a-zA-Zµ]?(alt1|alt2|...)(\^-?\d+)?` (the `Pi`,
`Degree` and `Radians` regexes). -/
def matchUnitAlt (syms : List (List Char)) (s : List Char) : Option Nat :=
  syms.foldl (fun best sym =>
    match best, matchUnit sym s with
    | some a, some b => some (max a b)
    | some a, none => some a
    | none, r => r) none

/-- `parse_exponent`: the integer after the first `^` of the slice, or `1`
when there is no `^`. -/
def parse_exponent (slice : List Char) : Option Int :=
  match slice.findIdx? (· = '^') with
  | some i => parseIntChars (slice.drop (i + 1))
  | none => some 1

/-- `has_prefix` of the lexer crate (renamed, the original spelling is not
available here): the first character of the unit symbol equals the second
character of the slice. -/
def hasPfx (slice unit_chars : List Char) : Bool :=
  unit_chars.head? == slice.get? 1

/-- `power_from_prefix` (renamed as above): the metric-prefix table keyed
by the first character of the slice. -/
def powerFromPfx (slice : List Char) : Option Int :=
  match slice.head? with
  | some 'Q' => some 30
  | some 'R' => some 27
  | some 'Y' => some 24
  | some 'Z' => some 21
  | some 'E' => some 18
  | some 'P' => some 15
  | some 'T' => some 12
  | some 'G' => some 9
  | some 'M' => some 6
  | some 'k' => some 3
  | some 'd' => some (-1)
  | some 'c' => some (-2)
  | some 'm' => some (-3)
  | some 'u' => some (-6)
  | some 'µ' => some (-6)
  | some 'n' => some (-9)
  | some 'p' => some (-12)
  | some 'f' => some (-15)
  | some 'a' => some (-18)
  | some 'z' => some (-21)
  | some 'y' => some (-24)
  | some 'r' => some (-27)
  | some 'q' => some (-30)
  | _ => none

/-- `parse_exponents_and_prefix` (renamed as above): prefix power when the
slice carries a prefix, then the unit exponent. -/
def parse_exponents_and_pfx (slice unit_chars : List Char) :
    Option Exponents := do
  let pfx ← if hasPfx slice unit_chars then powerFromPfx slice else pure 0
  let exponent ← parse_exponent slice
  pure ⟨exponent, pfx⟩

/-- `parse_imag`: strip the optional space and the trailing `i`/`j`; an
empty numeric part defaults to `1.0`. -/
def parse_imag (slice : List Char) : Option Q :=
  match slice.findIdx? (· = ' ') with
  | some 0 => some 1
  | some i => parseDecimal (slice.take i)
  | none =>
      if slice.length = 1 then some 1
      else parseDecimal (slice.take (slice.length - 1))

/-- `parse_power_of_ten`: the integer after the `^`. -/
def parse_power_of_ten (slice : List Char) : Option Int :=
  match slice.findIdx? (· = '^') with
  | some i => parseIntChars (slice.drop (i + 1))
  | none => none

/-- `parse_power_of_ten_e`: drop the `e`, parse the rest. -/
def parse_power_of_ten_e (slice : List Char) : Option Int :=
  parseIntChars (slice.drop 1)

/-- `parse_pi` / `parse_degree` / `parse_radians`: try the alternation
candidates in source order with `parse_exponents_and_prefix`. -/
def parseAlt (cands : List (List Char)) (slice : List Char) :
    Option Exponents :=
  match cands with
  | [] => none
  | c :: rest =>
      match parse_exponents_and_pfx slice c with
      | some e => some e
      | none => parseAlt rest slice

/-- One lexer rule: longest-match function, token-building callback,
priority (used only to break ties between equal-length matches, as in
`logos`; explicit priorities come from the source, default priorities
reflect the length of the literal stem as `logos` computes them). -/
structure LexRule where
  mlen : List Char → Option Nat
  build : List Char → Option Token
  prio : Nat

/-- A unit rule `[a-zA-Zµ]?sym(\^-?\d+)?` with its callback. -/
def unitRule (sym : String) (mk : Exponents → Token) : LexRule :=
  ⟨matchUnit sym.toList,
   fun slice => (parse_exponents_and_pfx slice sym.toList).map mk,
   2 * sym.length⟩

/-- An alternation rule (`Pi`, `Degree`, `Radians`) with its callback and
its explicit source priority. -/
def altRule (syms : List String) (mk : Exponents → Token) (prio : Nat) :
    LexRule :=
  ⟨matchUnitAlt (syms.map String.toList),
   fun slice => (parseAlt (syms.map String.toList) slice).map mk,
   prio⟩

/-- A fixed-string rule (`#[token]`). -/
def fixedRule (cands : List String) (t : Token) : LexRule :=
  ⟨matchFixed (cands.map String.toList), fun _ => some t,
   2 * (cands.map String.length).foldl min 1000⟩

/-- The complete rule set, in source order. -/
def lexRules : List LexRule :=
  [ ⟨matchReal, fun slice => (parseDecimal slice).map Token.Real, 3⟩,
    ⟨matchImag, fun slice => (parse_imag slice).map Token.Imag, 4⟩,
    ⟨matchPowTen,
      fun slice =>
        (match slice with
         | 'e' :: _ => parse_power_of_ten_e slice
         | _ => parse_power_of_ten slice).map Token.PowerOfTen,
      9⟩,
    fixedRule ["inf", "Inf", "INF", "infinity", "Infinity", "INFINITY",
               ".inf", ".Inf", ".INF"] Token.Infinity,
    fixedRule ["-inf", "-Inf", "-INF", "-infinity", "-Infinity",
               "-INFINITY", "-.inf", "-.Inf", "-.INF"] Token.NegInfinity,
    fixedRule ["("] Token.LeftBracket,
    ⟨matchRightBracket,
      fun slice => (parse_exponent slice).map Token.RightBracket, 2⟩,
    fixedRule ["+"] Token.Add,
    fixedRule ["-"] Token.Sub,
    fixedRule ["*"] Token.Mul,
    fixedRule ["/"] Token.Div,
    fixedRule ["%"] Token.Percent,
    unitRule "s" Token.Second,
    unitRule "m" Token.Meter,
    unitRule "g" Token.Gram,
    unitRule "A" Token.Ampere,
    unitRule "K" Token.Kelvin,
    unitRule "mol" Token.Mol,
    unitRule "cd" Token.Candela,
    unitRule "°C" Token.Celsius,
    unitRule "V" Token.Volt,
    unitRule "N" Token.Newton,
    unitRule "Nm" Token.NewtonMeter,
    unitRule "W" Token.Watt,
    unitRule "J" Token.Joule,
    unitRule "Hz" Token.Hertz,
    unitRule "rpm" Token.RotationsPerMinute,
    unitRule "Wb" Token.Weber,
    unitRule "T" Token.Tesla,
    unitRule "H" Token.Henry,
    unitRule "S" Token.Siemens,
    unitRule "t" Token.Ton,
    unitRule "Ohm" Token.Ohm,
    unitRule "ohm" Token.Ohm,
    unitRule "Ω" Token.Omega,
    altRule ["pi", "π", "PI", "Pi"] Token.Pi 2,
    altRule ["degree", "°", "Degree", "deg", "Deg"] Token.Degree 2,
    altRule ["rad", "radians", "Rad", "Radians"] Token.Radians 2 ]

/-- Maximal munch: the rule with the longest (non-empty) match; equal
lengths are broken by priority, then by source order. -/
def pickRule (s : List Char) : Option (Nat × LexRule) :=
  lexRules.foldl (fun best r =>
    match r.mlen s with
    | none => best
    | some len =>
        if len = 0 then best
        else
          match best with
          | none => some (len, r)
          | some (blen, br) =>
              if len > blen then some (len, r)
              else if len = blen && r.prio > br.prio then some (len, r)
              else best) none

/-- The lexer loop: skip whitespace, emit the best match, repeat.  A
position where no rule matches, or where a callback fails, yields an error
item; the stream is truncated there, which is observationally equivalent
for the parser (it aborts at the first error item).  The fuel is always
sufficient (every step consumes at least one character). -/
def lexGo : Nat → List Char → List (Except LexingError Token)
  | 0, _ => [.error .couldNotParse]
  | fuel + 1, s =>
      let s := s.dropWhile isSkipChar
      if s.isEmpty then []
      else
        match pickRule s with
        | none => [.error .couldNotParse]
        | some (len, r) =>
            match r.build (s.take len) with
            | some t => .ok t :: lexGo fuel (s.drop len)
            | none => [.error .couldNotParse]

/-- `Token::lexer(s)` as a finite item stream. -/
def lexItems (s : List Char) : List (Except LexingError Token) :=
  lexGo (s.length + 1) s

end DynQ

namespace DynQ

/-! ## The expression evaluator (`from_str_complexf64`, src/src/from_str.rs) -/

/-- `ParseErrorReason` (src/src/error.rs).  `ParseError`'s span and
substring carry diagnostics only; the claims are about the reasons, which
is what the model records.  `NotConvertibleFromComplexF64` keeps the
source number as payload (the `target_type` string is constant). -/
inductive ParseErrorReason where
  | UnexpectedToken
  | InputIsEmpty
  | UnbalancedBrackets
  | TwoNumbersWithoutOperator
  | TwoOperatorsWithoutNumber
  | MustNotStartWith
  | UnitsOfSummandsNotIdentical (err : UnitsNotEqual)
  | NotConvertibleFromComplexF64 (source : EC)
  | CouldNotParse
deriving DecidableEq, Repr

/-- `PreviousToken` (local enum of `from_str_complexf64`). -/
inductive PreviousToken where
  | Add
  | Sub
  | Mul
  | Div
  | Other
deriving DecidableEq, Repr

/-- `Operation` (local enum): a quantity together with the operator that
follows it (`Add(x)` means "x +", etc.). -/
inductive Operation where
  | Add (q : QC)
  | Mul (q : QC)
  | Div (q : QC)
deriving DecidableEq, Repr

/-- `From<Operation> for DynQuantity`. -/
def Operation.toQuantity : Operation → QC
  | .Add item => item
  | .Mul item => item
  | .Div item => item

/-- One product term of `multiply_no_nan` with its 0-times-infinity guard:
the source skips the `+=`/`-=` of `a * b` when one factor is infinite and
the other is zero, which is the same as adding or subtracting an exact
zero. -/
def guardedTerm (a b : EF) : EF :=
  if !(a.isInfinite && b.isZero) && !(a.isZero && b.isInfinite) then a.mul b
  else .fin 0

/-- `multiply_no_nan`: complex multiplication "by hand", with each of the
four component products entering the sums through its `guardedTerm` (the
accumulator starts at `0.0`, the real part gets `re += t1; re -= t4`, the
imaginary part `im += t2; im += t3`, in source order). -/
def multiply_no_nan (arg1 arg2 : EC) : EC :=
  ⟨((EF.fin 0).add (guardedTerm arg1.re arg2.re)).sub
     (guardedTerm arg1.im arg2.im),
   ((EF.fin 0).add (guardedTerm arg1.im arg2.re)).add
     (guardedTerm arg1.re arg2.im)⟩

/-- `include_infinity`: coerce the components of the active value to the
given infinity, keeping zero components zero.  The imaginary branch of the
source reads the sign from the *real* part; this asymmetry is translated
as-is. -/
def include_infinity (active : Option QC) (infinity : EF) : Option QC :=
  match active with
  | some quantity =>
      let re := if quantity.value.re.isZero then EF.fin 0
                else quantity.value.re.signum.mul infinity
      let im := if quantity.value.im.isZero then EF.fin 0
                else quantity.value.re.signum.mul infinity
      some ⟨⟨re, im⟩, quantity.unit⟩
  | none => some ⟨⟨infinity, .fin 0⟩, default⟩

/-- `adjust`: apply a mutation to the active quantity, installing the
multiplicative identity first when there is none. -/
def adjust (active : Option QC) (f : QC → QC) : Option QC :=
  some (f (active.getD ⟨EC.one, default⟩))

/-- The exact rational value of the `f64` constant
`std::f64::consts::PI`. -/
def PIf64 : Q := ⟨884279719003555, 281474976710656⟩

/-- The `f64` literal `273.15` (modelled by the exact decimal; no claim
exercises the Celsius path). -/
def C27315 : Q := ⟨5463, 20⟩

/-- `10.0.powi(e)`, exact. -/
def pow10q (e : Int) : Q := Q.zpow ⟨10, 1⟩ e

/-- The `while let Some(stack_item) = stack.pop()` loop of the
`Token::RightBracket` arm: fold `Add` entries into the bracket result via
checked addition; at the first `Mul`/`Div` entry raise the result to the
bracket exponent, combine, and stop.  Returns the new active quantity and
the remaining stack. -/
def popBracket (quantity : QC) (exponent : Int) :
    List Operation → Except UnitsNotEqual (QC × List Operation)
  | [] => .ok (quantity, [])
  | .Add elem :: rest =>
      match DynQuantity.try_add_assign quantity elem with
      | (quantity', none) => popBracket quantity' exponent rest
      | (_, some e) => .error e
  | .Mul elem :: rest => .ok (QC.mul elem (QC.powi quantity exponent), rest)
  | .Div elem :: rest => .ok (QC.div elem (QC.powi quantity exponent), rest)

/-- The mutable state of the token loop. -/
structure EvalState where
  active : Option QC
  stack : List Operation
  bracket_level : Nat
  previous_token : PreviousToken
  division_pending : Bool
deriving Repr

/-- The initial state of the loop. -/
def initState : EvalState := ⟨none, [], 0, .Other, false⟩

/-- One token of the `while let Some(token) = lexer.next()` loop.  The
`Bool` of the result is `true` for the arms that `continue` (skipping the
post-arm division block and the flag resets). -/
def applyToken (t : Token) (st : EvalState) :
    Except ParseErrorReason (EvalState × Bool) :=
  match t with
  | .Real val =>
      let active := match st.active with
        | some quantity =>
            some { quantity with
                   value := multiply_no_nan quantity.value ⟨.fin val, .fin 0⟩ }
        | none => some ⟨⟨.fin val, .fin 0⟩, default⟩
      .ok ({ st with active := active }, false)
  | .Imag val =>
      let active := match st.active with
        | some quantity =>
            some { quantity with
                   value := multiply_no_nan quantity.value ⟨.fin 0, .fin val⟩ }
        | none => some ⟨⟨.fin 0, .fin val⟩, default⟩
      .ok ({ st with active := active }, false)
  | .Infinity =>
      .ok ({ st with active := include_infinity st.active .pinf }, false)
  | .NegInfinity =>
      .ok ({ st with active := include_infinity st.active .ninf }, false)
  | .Mul =>
      if st.previous_token ≠ .Other then .error .TwoOperatorsWithoutNumber
      else if st.active.isNone then .error .MustNotStartWith
      else .ok ({ st with previous_token := .Mul }, true)
  | .Div =>
      if st.previous_token ≠ .Other then .error .TwoOperatorsWithoutNumber
      else
        match st.active with
        | some quantity =>
            .ok ({ st with active := none,
                           stack := .Div quantity :: st.stack,
                           previous_token := .Div,
                           division_pending := true }, true)
        | none => .error .MustNotStartWith
  | .Percent =>
      .ok ({ st with active := adjust st.active (fun q =>
               { q with value := q.value.scale (.fin ⟨1, 100⟩) }) }, false)
  | .Pi e =>
      .ok ({ st with active := adjust st.active (fun q =>
               { q with value :=
                   (q.value.scale
                     (.fin ((PIf64.zpow e.unit).mul (pow10q e.exponent)))) }) }, false)
  | .LeftBracket =>
      match st.active with
      | some quantity =>
          .ok ({ st with active := none,
                         stack := .Mul quantity :: st.stack,
                         bracket_level := st.bracket_level + 1 }, false)
      | none =>
          let stack :=
            if st.previous_token = .Other then
              Operation.Mul ⟨EC.one, default⟩ :: st.stack
            else st.stack
          .ok ({ st with stack := stack,
                         bracket_level := st.bracket_level + 1 }, false)
  | .RightBracket exponent =>
      match st.bracket_level with
      | 0 => .error .UnbalancedBrackets
      | val + 1 =>
          match st.active with
          | some quantity =>
              match popBracket quantity exponent st.stack with
              | .error e => .error (.UnitsOfSummandsNotIdentical e)
              | .ok (quantity', stack') =>
                  .ok ({ st with active := some quantity',
                                 stack := stack',
                                 bracket_level := val }, false)
          | none => .error .UnbalancedBrackets
  | .Add =>
      if st.previous_token = .Add || st.previous_token = .Sub then
        .error .TwoOperatorsWithoutNumber
      else
        let stack := match st.active with
          | some quantity => Operation.Add quantity :: st.stack
          | none => st.stack
        .ok ({ st with active := some ⟨EC.one, default⟩,
                       stack := stack,
                       previous_token := .Add }, true)
  | .Sub =>
      if st.previous_token = .Add || st.previous_token = .Sub then
        .error .TwoOperatorsWithoutNumber
      else
        let stack := match st.active with
          | some quantity => Operation.Add quantity :: st.stack
          | none => st.stack
        .ok ({ st with active := some ⟨⟨.fin (-1), .fin 0⟩, default⟩,
                       stack := stack,
                       previous_token := .Sub }, true)
  | .PowerOfTen exponent =>
      let active := match st.active with
        | some quantity =>
            some { quantity with
                   value := quantity.value.scale (.fin (pow10q exponent)) }
        | none => some ⟨⟨.fin (pow10q exponent), .fin 0⟩, default⟩
      .ok ({ st with active := active }, false)
  | .Second e =>
      .ok ({ st with active := adjust st.active (fun q =>
               { q with unit := { q.unit with second := q.unit.second + e.unit },
                        value := q.value.scale (.fin (pow10q e.exponent)) }) },
           false)
  | .Meter e =>
      .ok ({ st with active := adjust st.active (fun q =>
               { q with unit := { q.unit with meter := q.unit.meter + e.unit },
                        value := q.value.scale (.fin (pow10q e.exponent)) }) },
           false)
  | .Gram e =>
      .ok ({ st with active := adjust st.active (fun q =>
               { q with unit := { q.unit with
                                  kilogram := q.unit.kilogram + e.unit },
                        value := (q.value.scale
                          (.fin (pow10q (Exponents.exponent
                                          ⟨e.unit, e.pfx - 3⟩)))) }) },
           false)
  | .Ampere e =>
      .ok ({ st with active := adjust st.active (fun q =>
               { q with unit := { q.unit with ampere := q.unit.ampere + e.unit },
                        value := q.value.scale (.fin (pow10q e.exponent)) }) },
           false)
  | .Kelvin e =>
      .ok ({ st with active := adjust st.active (fun q =>
               { q with unit := { q.unit with kelvin := q.unit.kelvin + e.unit },
                        value := q.value.scale (.fin (pow10q e.exponent)) }) },
           false)
  | .Mol e =>
      .ok ({ st with active := adjust st.active (fun q =>
               { q with unit := { q.unit with mol := q.unit.mol + e.unit },
                        value := q.value.scale (.fin (pow10q e.exponent)) }) },
           false)
  | .Candela e =>
      .ok ({ st with active := adjust st.active (fun q =>
               { q with unit := { q.unit with
                                  candela := q.unit.candela + e.unit },
                        value := q.value.scale (.fin (pow10q e.exponent)) }) },
           false)
  | .Celsius e =>
      .ok ({ st with active := adjust st.active (fun q =>
               { q with unit := { q.unit with kelvin := q.unit.kelvin + e.unit },
                        value := ((q.value.addRe
                          (.fin (C27315.zpow e.unit))).scale
                          (.fin (pow10q e.exponent))) }) },
           false)
  | .Newton e =>
      .ok ({ st with active := adjust st.active (fun q =>
               { q with unit := { q.unit with
                                  kilogram := q.unit.kilogram + e.unit,
                                  meter := q.unit.meter + e.unit,
                                  second := q.unit.second - 2 * e.unit },
                        value := q.value.scale (.fin (pow10q e.exponent)) }) },
           false)
  | .Watt e =>
      .ok ({ st with active := adjust st.active (fun q =>
               { q with unit := { q.unit with
                                  kilogram := q.unit.kilogram + e.unit,
                                  meter := q.unit.meter + 2 * e.unit,
                                  second := q.unit.second - 3 * e.unit },
                        value := q.value.scale (.fin (pow10q e.exponent)) }) },
           false)
  | .Joule e =>
      .ok ({ st with active := adjust st.active (fun q =>
               { q with unit := { q.unit with
                                  kilogram := q.unit.kilogram + e.unit,
                                  meter := q.unit.meter + 2 * e.unit,
                                  second := q.unit.second - 2 * e.unit },
                        value := q.value.scale (.fin (pow10q e.exponent)) }) },
           false)
  | .Volt e =>
      .ok ({ st with active := adjust st.active (fun q =>
               { q with unit := { q.unit with
                                  kilogram := q.unit.kilogram + e.unit,
                                  meter := q.unit.meter + 2 * e.unit,
                                  ampere := q.unit.ampere - e.unit,
                                  second := q.unit.second - 3 * e.unit },
                        value := q.value.scale (.fin (pow10q e.exponent)) }) },
           false)
  | .Weber e =>
      .ok ({ st with active := adjust st.active (fun q =>
               { q with unit := { q.unit with
                                  kilogram := q.unit.kilogram + e.unit,
                                  meter := q.unit.meter + 2 * e.unit,
                                  ampere := q.unit.ampere - e.unit,
                                  second := q.unit.second - 2 * e.unit },
                        value := q.value.scale (.fin (pow10q e.exponent)) }) },
           false)
  | .Tesla e =>
      .ok ({ st with active := adjust st.active (fun q =>
               { q with unit := { q.unit with
                                  kilogram := q.unit.kilogram + e.unit,
                                  ampere := q.unit.ampere - e.unit,
                                  second := q.unit.second - 2 * e.unit },
                        value := q.value.scale (.fin (pow10q e.exponent)) }) },
           false)
  | .Henry e =>
      .ok ({ st with active := adjust st.active (fun q =>
               { q with unit := { q.unit with
                                  kilogram := q.unit.kilogram + e.unit,
                                  meter := q.unit.meter + 2 * e.unit,
                                  ampere := q.unit.ampere - 2 * e.unit,
                                  second := q.unit.second - 2 * e.unit },
                        value := q.value.scale (.fin (pow10q e.exponent)) }) },
           false)
  | .Hertz e =>
      .ok ({ st with active := adjust st.active (fun q =>
               { q with unit := { q.unit with second := q.unit.second - e.unit },
                        value := q.value.scale (.fin (pow10q e.exponent)) }) },
           false)
  | .Siemens e =>
      .ok ({ st with active := adjust st.active (fun q =>
               { q with unit := { q.unit with
                                  kilogram := q.unit.kilogram - e.unit,
                                  meter := q.unit.meter - 2 * e.unit,
                                  second := q.unit.second + 3 * e.unit,
                                  ampere := q.unit.ampere + 2 * e.unit },
                        value := q.value.scale (.fin (pow10q e.exponent)) }) },
           false)
  | .RotationsPerMinute e =>
      .ok ({ st with active := adjust st.active (fun q =>
               { q with unit := { q.unit with second := q.unit.second - e.unit },
                        value := (q.value.scale
                          (.fin ((Q.zpow ⟨1, 60⟩ e.unit).mul
                                 (pow10q e.exponent)))) }) },
           false)
  | .Degree e =>
      .ok ({ st with active := adjust st.active (fun q =>
               { q with value :=
                   (q.value.scale
                     (.fin (((PIf64.div ⟨180, 1⟩).zpow e.unit).mul (pow10q e.exponent)))) }) },
           false)
  | .Radians e =>
      .ok ({ st with active := adjust st.active (fun q =>
               { q with value := q.value.scale (.fin (pow10q e.exponent)) }) },
           false)
  | .Ohm e =>
      .ok ({ st with active := adjust st.active (fun q =>
               { q with unit := { q.unit with
                                  kilogram := q.unit.kilogram + e.unit,
                                  meter := q.unit.meter + 2 * e.unit,
                                  second := q.unit.second - 3 * e.unit,
                                  ampere := q.unit.ampere - 2 * e.unit },
                        value := q.value.scale (.fin (pow10q e.exponent)) }) },
           false)
  | .Omega e =>
      .ok ({ st with active := adjust st.active (fun q =>
               { q with unit := { q.unit with
                                  kilogram := q.unit.kilogram + e.unit,
                                  meter := q.unit.meter + 2 * e.unit,
                                  second := q.unit.second - 3 * e.unit,
                                  ampere := q.unit.ampere - 2 * e.unit },
                        value := q.value.scale (.fin (pow10q e.exponent)) }) },
           false)
  | .NewtonMeter e =>
      .ok ({ st with active := adjust st.active (fun q =>
               { q with unit := { q.unit with
                                  kilogram := q.unit.kilogram + e.unit,
                                  meter := q.unit.meter + 2 * e.unit,
                                  second := q.unit.second - 2 * e.unit },
                        value := q.value.scale (.fin (pow10q e.exponent)) }) },
           false)
  | .Ton e =>
      .ok ({ st with active := adjust st.active (fun q =>
               { q with unit := { q.unit with
                                  kilogram := q.unit.kilogram + e.unit },
                        value := (q.value.scale
                          (.fin (pow10q (Exponents.exponent
                                          ⟨e.unit, e.pfx + 3⟩)))) }) },
           false)

/-- The block after the token arms: resolve a pending division against the
value just produced (unless the stack top is no longer a division), then
clear `division_pending` and reset `previous_token`.  The flag resets of
the source happen after the division block on every path; they are written
into each successful branch here. -/
def postStep (st : EvalState) : Except ParseErrorReason EvalState :=
  if st.division_pending then
    match st.stack with
    | [] => .error .UnbalancedBrackets
    | last :: rest =>
        match last with
        | .Div _ =>
            match st.active with
            | some quantity =>
                .ok { st with
                      active := some (QC.div (Operation.toQuantity last)
                                             quantity),
                      stack := rest,
                      division_pending := false,
                      previous_token := .Other }
            | none =>
                .ok { st with division_pending := false,
                              previous_token := .Other }
        | _ =>
            .ok { st with division_pending := false,
                          previous_token := .Other }
  else
    .ok { st with division_pending := false, previous_token := .Other }

/-- One step of the closing `try_fold` after the token loop. -/
def finishStep (acc : QC) (item : Operation) : Except ParseErrorReason QC :=
  match item with
  | .Add q =>
      match DynQuantity.try_add_assign acc q with
      | (acc', none) => .ok acc'
      | (_, some e) => .error (.UnitsOfSummandsNotIdentical e)
  | .Mul q => .ok (QC.mul q acc)
  | .Div q => .ok (QC.div q acc)

/-- The code after the token loop: check the bracket level, then fold the
remaining stack (bottom of the `Vec` first) into the final quantity. -/
def finish (st : EvalState) : Except ParseErrorReason QC :=
  if st.bracket_level ≠ 0 then .error .UnbalancedBrackets
  else
    match st.stack with
    | [] =>
        match st.active with
        | some quantity => .ok quantity
        | none => .error .InputIsEmpty
    | initial :: rest =>
        let p : QC × List Operation :=
          match st.active with
          | some quantity => (quantity, initial :: rest)
          | none => (Operation.toQuantity initial, rest)
        p.2.reverse.foldlM finishStep p.1

/-- The token loop itself.  An error item of the lexer stream becomes an
`UnexpectedToken` parse error at the moment it is reached. -/
def go : List (Except LexingError Token) → EvalState →
    Except ParseErrorReason QC
  | [], st => finish st
  | .error _ :: _, _ => .error .UnexpectedToken
  | .ok t :: rest, st =>
      match applyToken t st with
      | .error e => .error e
      | .ok (st', true) => go rest st'
      | .ok (st', false) =>
          match postStep st' with
          | .error e => .error e
          | .ok st'' => go rest st''

/-- `from_str_complexf64`: lex, then evaluate. -/
def from_str_complexf64 (s : List Char) : Except ParseErrorReason QC :=
  go (lexItems s) initState

/-- `<f64 as F64RealOrComplex>::try_from_complexf64` composed with the
`FromStr` implementation for `DynQuantity<f64>`: the narrowing succeeds
exactly when the imaginary component compares equal to `0.0`. -/
def from_str_f64 (s : List Char) : Except ParseErrorReason (DynQuantity EF) :=
  match from_str_complexf64 s with
  | .error e => .error e
  | .ok dyn_quantity =>
      if dyn_quantity.value.im.isZero then
        .ok ⟨dyn_quantity.value.re, dyn_quantity.unit⟩
      else
        .error (.NotConvertibleFromComplexF64 dyn_quantity.value)

end DynQ

namespace DynQ

/-! ## Specification-side definitions

`popBracketPowFirst` is modelled from the words of the claim about the
closing-bracket arm (power applied before the stack is folded);
`popBracketSpec` is the amended description (adds folded first, power
applied at the stopping multiply/divide entry).  Both are compared against
`popBracket`, the translation of the source loop. -/

/-- Modelled from the spec claim: "the in-bracket accumulator is first
raised to the n-th power, and only afterwards are stack entries popped and
folded against it in reverse order (add-tagged entries via
dimensionally-checked addition) until and including the first multiply- or
divide-tagged entry". -/
def popBracketPowFirst (quantity : QC) (exponent : Int)
    (stack : List Operation) : Except UnitsNotEqual (QC × List Operation) :=
  let rec fold (q : QC) : List Operation →
      Except UnitsNotEqual (QC × List Operation)
    | [] => .ok (q, [])
    | .Add elem :: rest =>
        match DynQuantity.try_add_assign q elem with
        | (q', none) => fold q' rest
        | (_, some e) => .error e
    | .Mul elem :: rest => .ok (QC.mul elem q, rest)
    | .Div elem :: rest => .ok (QC.div elem q, rest)
  fold (QC.powi quantity exponent) stack

/-- Sequentially fold quantities into an accumulator with the checked
addition. -/
def foldAdds (q : QC) : List QC → Except UnitsNotEqual QC
  | [] => .ok q
  | elem :: rest =>
      match DynQuantity.try_add_assign q elem with
      | (q', none) => foldAdds q' rest
      | (_, some e) => .error e

/-- Whether a stack entry is add-tagged. -/
def isAddOp : Operation → Bool
  | .Add _ => true
  | _ => false

/-- The amended description of the closing-bracket fold: the leading run
of add-tagged entries is folded into the accumulator by checked addition;
at the first multiply/divide entry the accumulated quantity is raised to
the bracket exponent and combined; with no multiply/divide entry the
(unpowered) accumulated quantity is the result. -/
def popBracketSpec (quantity : QC) (exponent : Int)
    (stack : List Operation) : Except UnitsNotEqual (QC × List Operation) :=
  match foldAdds quantity ((stack.takeWhile isAddOp).map Operation.toQuantity) with
  | .error e => .error e
  | .ok q' =>
      match stack.dropWhile isAddOp with
      | [] => .ok (q', [])
      | .Mul elem :: rest => .ok (QC.mul elem (QC.powi q' exponent), rest)
      | .Div elem :: rest => .ok (QC.div elem (QC.powi q' exponent), rest)
      | .Add _ :: _ => .ok (q', [])

/-- Decidable equality for `Except` results (component-wise). -/
instance {E A : Type} [DecidableEq E] [DecidableEq A] :
    DecidableEq (Except E A) := fun x y =>
  match x, y with
  | .ok a, .ok b =>
      if h : a = b then .isTrue (by rw [h])
      else .isFalse (fun hc => h (Except.ok.inj hc))
  | .ok _, .error _ => .isFalse (fun hc => Except.noConfusion hc)
  | .error _, .ok _ => .isFalse (fun hc => Except.noConfusion hc)
  | .error a, .error b =>
      if h : a = b then .isTrue (by rw [h])
      else .isFalse (fun hc => h (Except.error.inj hc))

/-- The parse-error reasons the evaluator (`from_str_complexf64`) can
construct.  `TwoNumbersWithoutOperator`, `NotConvertibleFromComplexF64`
and `CouldNotParse` are never among them. -/
def evaluatorReason (e : ParseErrorReason) : Prop :=
  e = .UnexpectedToken ∨ e = .InputIsEmpty ∨ e = .UnbalancedBrackets ∨
  e = .TwoOperatorsWithoutNumber ∨ e = .MustNotStartWith ∨
  ∃ u, e = .UnitsOfSummandsNotIdentical u

end DynQ

namespace DynQ

/-! ## Auxiliary lemmas

Every error the evaluator returns carries one of the reasons of
`evaluatorReason`; in particular the reasons `TwoNumbersWithoutOperator`
and `NotConvertibleFromComplexF64` are never constructed by the token
loop.  The lemmas below establish this for each component of the
evaluator. -/

theorem applyToken_error_reason (t : Token) (st : EvalState)
    (e : ParseErrorReason) (h : applyToken t st = .error e) :
    evaluatorReason e := by
  cases t <;> simp only [applyToken] at h <;> (repeat' split at h) <;>
    (try simp_all [evaluatorReason]) <;>
    exact Or.inr (Or.inr (Or.inr (Or.inr (Or.inr ⟨_, h.symm⟩))))

theorem postStep_error_reason (st : EvalState) (e : ParseErrorReason)
    (h : postStep st = .error e) : evaluatorReason e := by
  simp only [postStep] at h
  (repeat' split at h) <;> simp_all [evaluatorReason]

theorem finishStep_error_reason (acc : QC) (item : Operation)
    (e : ParseErrorReason) (h : finishStep acc item = .error e) :
    evaluatorReason e := by
  cases item <;> simp only [finishStep] at h <;> (repeat' split at h) <;>
    (try simp_all [evaluatorReason]) <;>
    exact Or.inr (Or.inr (Or.inr (Or.inr (Or.inr ⟨_, h.symm⟩))))

theorem foldlM_finishStep_error_reason (l : List Operation) (init : QC)
    (e : ParseErrorReason)
    (h : l.foldlM finishStep init = .error e) : evaluatorReason e := by
  induction l generalizing init with
  | nil => simp [pure, Except.pure] at h
  | cons a l ih =>
      rw [List.foldlM_cons] at h
      cases hf : finishStep init a with
      | error e' =>
          rw [hf] at h
          simp only [bind, Except.bind] at h
          injection h with h'
          exact finishStep_error_reason _ _ _ (h' ▸ hf)
      | ok acc' =>
          rw [hf] at h
          simp only [bind, Except.bind] at h
          exact ih _ h

theorem finish_error_reason (st : EvalState) (e : ParseErrorReason)
    (h : finish st = .error e) : evaluatorReason e := by
  simp only [finish] at h
  (repeat' split at h) <;>
    first
    | exact foldlM_finishStep_error_reason _ _ _ h
    | simp_all [evaluatorReason]

theorem go_error_reason (items : List (Except LexingError Token))
    (st : EvalState) (e : ParseErrorReason)
    (h : go items st = .error e) : evaluatorReason e := by
  induction items generalizing st with
  | nil => exact finish_error_reason _ _ h
  | cons item rest ih =>
      cases item with
      | error e' =>
          simp only [go] at h
          injection h with h'
          simp [evaluatorReason, ← h']
      | ok t =>
          simp only [go] at h
          cases ha : applyToken t st with
          | error e' =>
              rw [ha] at h
              injection h with h'
              exact applyToken_error_reason _ _ _ (h' ▸ ha)
          | ok p =>
              obtain ⟨st', b⟩ := p
              rw [ha] at h
              cases b with
              | true => exact ih _ h
              | false =>
                  simp only at h
                  cases hp : postStep st' with
                  | error e' =>
                      rw [hp] at h
                      injection h with h'
                      exact postStep_error_reason _ _ (h' ▸ hp)
                  | ok st'' =>
                      rw [hp] at h
                      exact ih _ h

theorem from_str_complexf64_error_reason (s : List Char)
    (e : ParseErrorReason) (h : from_str_complexf64 s = .error e) :
    evaluatorReason e :=
  go_error_reason _ _ _ h

end DynQ

namespace DynQ

/-- Helper: the lexer emits nothing when skipping whitespace exhausts the
input. -/
theorem lexGo_whitespace (fuel : Nat) (s : List Char)
    (h : s.dropWhile isSkipChar = []) : lexGo (fuel + 1) s = [] := by
  simp [lexGo, h]

/-! ## The claims -/

set_option maxRecDepth 8000 in
/-- **C1**: parsing `"(1 A + 2i A)^2"` as a complex-valued quantity
returns `Ok` with complex value `-3+4i` and a unit whose ampere exponent
is `2` and whose other six exponents are `0`. -/
theorem claim_C1_complex_square :
    from_str_complexf64 "(1 A + 2i A)^2".toList =
      .ok ⟨⟨.fin ⟨-3, 1⟩, .fin ⟨4, 1⟩⟩, ⟨0, 0, 0, 2, 0, 0, 0⟩⟩ := by decide

/-- **C2** (counterexample): on the accumulator `2i A` with bracket
exponent `2` and the stack `[Add (1 A), Mul 1]` (exactly the state reached
inside `"(1 A + 2i A)^2"`), the evaluator's fold `popBracket` returns
`(-3+4i) A^2`, while the claim's order (power first, then fold,
`popBracketPowFirst`) fails with a unit mismatch `A^2` vs `A`; the two
disagree, refuting the claimed order. -/
theorem claim_C2_bracket_fold_counterexample :
    popBracket ⟨⟨.fin ⟨0, 1⟩, .fin ⟨2, 1⟩⟩, ⟨0, 0, 0, 1, 0, 0, 0⟩⟩ 2
        [.Add ⟨⟨.fin ⟨1, 1⟩, .fin ⟨0, 1⟩⟩, ⟨0, 0, 0, 1, 0, 0, 0⟩⟩,
         .Mul ⟨EC.one, ⟨0, 0, 0, 0, 0, 0, 0⟩⟩] =
      .ok (⟨⟨.fin ⟨-3, 1⟩, .fin ⟨4, 1⟩⟩, ⟨0, 0, 0, 2, 0, 0, 0⟩⟩, []) ∧
    popBracketPowFirst ⟨⟨.fin ⟨0, 1⟩, .fin ⟨2, 1⟩⟩, ⟨0, 0, 0, 1, 0, 0, 0⟩⟩ 2
        [.Add ⟨⟨.fin ⟨1, 1⟩, .fin ⟨0, 1⟩⟩, ⟨0, 0, 0, 1, 0, 0, 0⟩⟩,
         .Mul ⟨EC.one, ⟨0, 0, 0, 0, 0, 0, 0⟩⟩] =
      .error ⟨⟨0, 0, 0, 2, 0, 0, 0⟩, ⟨0, 0, 0, 1, 0, 0, 0⟩⟩ ∧
    popBracket ⟨⟨.fin ⟨0, 1⟩, .fin ⟨2, 1⟩⟩, ⟨0, 0, 0, 1, 0, 0, 0⟩⟩ 2
        [.Add ⟨⟨.fin ⟨1, 1⟩, .fin ⟨0, 1⟩⟩, ⟨0, 0, 0, 1, 0, 0, 0⟩⟩,
         .Mul ⟨EC.one, ⟨0, 0, 0, 0, 0, 0, 0⟩⟩] ≠
      popBracketPowFirst ⟨⟨.fin ⟨0, 1⟩, .fin ⟨2, 1⟩⟩, ⟨0, 0, 0, 1, 0, 0, 0⟩⟩ 2
        [.Add ⟨⟨.fin ⟨1, 1⟩, .fin ⟨0, 1⟩⟩, ⟨0, 0, 0, 1, 0, 0, 0⟩⟩,
         .Mul ⟨EC.one, ⟨0, 0, 0, 0, 0, 0, 0⟩⟩] := by decide

/-- **C2** (amended): when the evaluator processes a closing bracket
carrying exponent `n`, stack entries are popped in reverse order with the
add-tagged entries folded into the (unpowered) bracket accumulator via
dimensionally-checked addition; at the first multiply- or divide-tagged
entry the accumulated quantity is raised to the `n`-th power, combined
with that entry, and the fold stops (with no such entry the accumulated
quantity is returned unpowered). -/
theorem claim_C2_bracket_fold_amended (q : QC) (n : Int)
    (stack : List Operation) :
    popBracket q n stack = popBracketSpec q n stack := by
  induction stack generalizing q with
  | nil => rfl
  | cons op rest ih =>
      cases op with
      | Add elem =>
          simp only [popBracket, popBracketSpec, List.takeWhile_cons,
                     List.dropWhile_cons, isAddOp, List.map_cons,
                     Operation.toQuantity, foldAdds, if_true]
          rcases hadd : DynQuantity.try_add_assign q elem with ⟨q', err⟩
          cases err with
          | none => simpa [popBracketSpec] using ih q'
          | some e => rfl
      | Mul elem =>
          simp [popBracket, popBracketSpec, List.takeWhile_cons,
                List.dropWhile_cons, isAddOp, foldAdds]
      | Div elem =>
          simp [popBracket, popBracketSpec, List.takeWhile_cons,
                List.dropWhile_cons, isAddOp, foldAdds]

/-- **C3** (code evaluation): the input `"5 32"` — two adjacent numeric
tokens with no operator — parses *successfully* to the dimensionless
value `160` (implicit multiplication); moreover the evaluator never
constructs the reason `TwoNumbersWithoutOperator` for any input (every
produced reason is in `evaluatorReason`, which excludes it). -/
theorem claim_C3_adjacent_numbers_code :
    from_str_complexf64 "5 32".toList =
      .ok ⟨⟨.fin ⟨160, 1⟩, .fin ⟨0, 1⟩⟩, ⟨0, 0, 0, 0, 0, 0, 0⟩⟩ ∧
    ∀ (s : List Char) (e : ParseErrorReason),
      from_str_complexf64 s = .error e → evaluatorReason e := by
  refine ⟨by decide, ?_⟩
  intro s e h
  exact from_str_complexf64_error_reason s e h

/-- **C3** witness for the universally quantified conjunct. -/
theorem claim_C3_adjacent_numbers_code_witness :
    evaluatorReason .MustNotStartWith :=
  claim_C3_adjacent_numbers_code.2 "*3".toList .MustNotStartWith (by decide)

/-- **C4** (counterexample): the input `")"` — whose first token is a
closing bracket — fails with `UnbalancedBrackets` and not with
`MustNotStartWith` as the claim states. -/
theorem claim_C4_leading_bracket_counterexample :
    from_str_complexf64 ")".toList = .error .UnbalancedBrackets ∧
    from_str_complexf64 ")".toList ≠ .error .MustNotStartWith := by decide

/-- **C4** (amended): a token stream whose first token is `*` or `/`
fails with `MustNotStartWith` (in particular the input `"*3"` does); a
stream whose first token is a closing bracket instead fails with
`UnbalancedBrackets`. -/
theorem claim_C4_leading_operator_amended :
    (∀ rest, go (.ok .Mul :: rest) initState = .error .MustNotStartWith) ∧
    (∀ rest, go (.ok .Div :: rest) initState = .error .MustNotStartWith) ∧
    (∀ (n : Int) rest, go (.ok (.RightBracket n) :: rest) initState =
        .error .UnbalancedBrackets) ∧
    from_str_complexf64 "*3".toList = .error .MustNotStartWith := by
  refine ⟨fun rest => ?_, fun rest => ?_, fun n rest => ?_, by decide⟩
  · simp [go, applyToken, initState]
  · simp [go, applyToken, initState]
  · simp [go, applyToken, initState]

/-- **C5**: in the parser's magnitude multiplication (`multiply_no_nan`),
whenever one factor's component is exactly zero and the other factor's
component is infinite, the corresponding contribution to the product is
exactly zero and never `NaN`; the guard is applied component-wise to all
four real/imaginary component pairs, and in particular a zero quantity
times a real-infinite one is exactly zero. -/
theorem claim_C5_zero_times_infinity :
    (∀ a b : EF,
        ((a.isZero && b.isInfinite) = true ∨
         (a.isInfinite && b.isZero) = true) →
        guardedTerm a b = .fin 0 ∧ (guardedTerm a b).isNaN = false) ∧
    multiply_no_nan ⟨.fin 0, .fin 0⟩ ⟨.pinf, .fin 0⟩ = ⟨.fin 0, .fin 0⟩ := by
  constructor
  · intro a b h
    rcases h with h | h <;>
      · rw [Bool.and_eq_true] at h
        simp [guardedTerm, EF.isNaN, h.1, h.2]
  · decide

/-- **C5** witness: the real-component contribution `0 * inf` is exactly
zero. -/
theorem claim_C5_zero_times_infinity_witness :
    guardedTerm (.fin 0) .pinf = .fin 0 ∧
    (guardedTerm (.fin 0) EF.pinf).isNaN = false :=
  claim_C5_zero_times_infinity.1 (.fin 0) .pinf (Or.inl (by decide))

/-- **C6**: parsing into the real-valued type fails with
`NotConvertibleFromComplexF64` exactly when the internally computed
complex result has a non-zero imaginary part: a successful complex parse
narrows iff the imaginary part compares equal to zero, and conversely a
`NotConvertibleFromComplexF64` failure can only arise from a successful
complex parse with non-zero imaginary part (the evaluator itself never
produces that reason); in particular `"5i"` as real fails with
`NotConvertibleFromComplexF64` while `"(2i)^2"` as real succeeds with
value `-4`. -/
theorem claim_C6_complex_narrowing :
    (∀ (s : List Char) (q : QC), from_str_complexf64 s = .ok q →
        (q.value.im.isZero = true →
            from_str_f64 s = .ok ⟨q.value.re, q.unit⟩) ∧
        (q.value.im.isZero = false →
            from_str_f64 s =
              .error (.NotConvertibleFromComplexF64 q.value))) ∧
    (∀ (s : List Char) (v : EC),
        from_str_f64 s = .error (.NotConvertibleFromComplexF64 v) →
        ∃ q : QC, from_str_complexf64 s = .ok q ∧ q.value = v ∧
          q.value.im.isZero = false) ∧
    from_str_f64 "5i".toList =
      .error (.NotConvertibleFromComplexF64 ⟨.fin 0, .fin ⟨5, 1⟩⟩) ∧
    from_str_f64 "(2i)^2".toList =
      .ok ⟨.fin ⟨-4, 1⟩, ⟨0, 0, 0, 0, 0, 0, 0⟩⟩ := by
  refine ⟨?_, ?_, by decide, by decide⟩
  · intro s q h
    constructor <;> intro him <;> simp [from_str_f64, h, him]
  · intro s v h
    unfold from_str_f64 at h
    cases hc : from_str_complexf64 s with
    | error e =>
        rw [hc] at h
        injection h with h'
        have hr := from_str_complexf64_error_reason s e hc
        rw [h'] at hr
        simp [evaluatorReason] at hr
    | ok q =>
        rw [hc] at h
        by_cases him : q.value.im.isZero
        · simp [him] at h
        · refine ⟨q, rfl, ?_, by simpa using him⟩
          simp [him] at h
          exact h

/-- **C6** witness for the universally quantified conjuncts. -/
theorem claim_C6_complex_narrowing_witness :
    from_str_f64 "(1 A + 2i A)^2".toList =
      .error (.NotConvertibleFromComplexF64 ⟨.fin ⟨-3, 1⟩, .fin ⟨4, 1⟩⟩) :=
  (claim_C6_complex_narrowing.1 "(1 A + 2i A)^2".toList
      ⟨⟨.fin ⟨-3, 1⟩, .fin ⟨4, 1⟩⟩, ⟨0, 0, 0, 2, 0, 0, 0⟩⟩
      (by decide)).2 (by decide)

/-- **C7**: the checked additions and subtractions (`try_add`,
`try_add_assign`, `try_sub`, `try_sub_assign`) succeed exactly when the
two units are structurally equal, adding or subtracting the values while
leaving the unit unchanged; on differing units they return a
`UnitsNotEqual` error carrying both units and the receiving quantity is
left completely unmodified. -/
theorem claim_C7_checked_add_sub (α : Type) [Add α] [Sub α]
    (q r : DynQuantity α) :
    ((DynQuantity.try_add_assign q r).2 = none ↔ q.unit = r.unit) ∧
    ((DynQuantity.try_sub_assign q r).2 = none ↔ q.unit = r.unit) ∧
    (q.unit = r.unit →
      DynQuantity.try_add_assign q r =
        (⟨q.value + r.value, q.unit⟩, none) ∧
      DynQuantity.try_sub_assign q r =
        (⟨q.value - r.value, q.unit⟩, none) ∧
      DynQuantity.try_add q r = .ok ⟨q.value + r.value, q.unit⟩ ∧
      DynQuantity.try_sub q r = .ok ⟨q.value - r.value, q.unit⟩) ∧
    (q.unit ≠ r.unit →
      DynQuantity.try_add_assign q r = (q, some ⟨q.unit, r.unit⟩) ∧
      DynQuantity.try_sub_assign q r = (q, some ⟨q.unit, r.unit⟩) ∧
      DynQuantity.try_add q r = .error ⟨q.unit, r.unit⟩ ∧
      DynQuantity.try_sub q r = .error ⟨q.unit, r.unit⟩) := by
  by_cases h : q.unit = r.unit <;>
    simp [DynQuantity.try_add_assign, DynQuantity.try_sub_assign,
          DynQuantity.try_add, DynQuantity.try_sub, h]

/-- **C7** witness at concrete ampere-valued quantities. -/
theorem claim_C7_checked_add_sub_witness :
    DynQuantity.try_add (α := Int) ⟨1, ⟨0, 0, 0, 1, 0, 0, 0⟩⟩
      ⟨2, ⟨0, 0, 0, 1, 0, 0, 0⟩⟩ = .ok ⟨3, ⟨0, 0, 0, 1, 0, 0, 0⟩⟩ := by
  simpa using
    (claim_C7_checked_add_sub Int ⟨1, ⟨0, 0, 0, 1, 0, 0, 0⟩⟩
      ⟨2, ⟨0, 0, 0, 1, 0, 0, 0⟩⟩).2.2.1 rfl |>.2.2.1

/-- **C8** (counterexample): at the `i32` boundary the product of two
units does not add the exponents mathematically: with
`u.second = 2^31 - 1` and `v.second = 1` the `i32` sum wraps to `-2^31`
(release) — debug builds panic — instead of the claimed `2^31`. -/
theorem claim_C8_unit_overflow_counterexample :
    (Unit.mul ⟨2 ^ 31 - 1, 0, 0, 0, 0, 0, 0⟩
        ⟨1, 0, 0, 0, 0, 0, 0⟩).second = -(2 ^ 31) ∧
    (Unit.mul ⟨2 ^ 31 - 1, 0, 0, 0, 0, 0, 0⟩
        ⟨1, 0, 0, 0, 0, 0, 0⟩).second ≠ (2 ^ 31 - 1) + 1 := by decide

/-- **C8** (amended): for all units `u`, `v` and every integer `n`, unit
multiplication adds, division subtracts and `powi` multiplies the seven
exponents component-wise in wrapping 32-bit arithmetic (debug builds
abort instead of wrapping); the mathematical sum, difference or product
is obtained exactly whenever it lies within the `i32` range, `wrap32`
being the identity there. -/
theorem claim_C8_unit_componentwise_amended (u v : Unit) (n : Int) :
    ((u.mul v).second = wrap32 (u.second + v.second) ∧
     (u.mul v).meter = wrap32 (u.meter + v.meter) ∧
     (u.mul v).kilogram = wrap32 (u.kilogram + v.kilogram) ∧
     (u.mul v).ampere = wrap32 (u.ampere + v.ampere) ∧
     (u.mul v).kelvin = wrap32 (u.kelvin + v.kelvin) ∧
     (u.mul v).mol = wrap32 (u.mol + v.mol) ∧
     (u.mul v).candela = wrap32 (u.candela + v.candela)) ∧
    ((u.div v).second = wrap32 (u.second - v.second) ∧
     (u.div v).meter = wrap32 (u.meter - v.meter) ∧
     (u.div v).kilogram = wrap32 (u.kilogram - v.kilogram) ∧
     (u.div v).ampere = wrap32 (u.ampere - v.ampere) ∧
     (u.div v).kelvin = wrap32 (u.kelvin - v.kelvin) ∧
     (u.div v).mol = wrap32 (u.mol - v.mol) ∧
     (u.div v).candela = wrap32 (u.candela - v.candela)) ∧
    ((u.powi n).second = wrap32 (u.second * n) ∧
     (u.powi n).meter = wrap32 (u.meter * n) ∧
     (u.powi n).kilogram = wrap32 (u.kilogram * n) ∧
     (u.powi n).ampere = wrap32 (u.ampere * n) ∧
     (u.powi n).kelvin = wrap32 (u.kelvin * n) ∧
     (u.powi n).mol = wrap32 (u.mol * n) ∧
     (u.powi n).candela = wrap32 (u.candela * n)) ∧
    (∀ x : Int, -(2 ^ 31) ≤ x → x < 2 ^ 31 → wrap32 x = x) := by
  refine ⟨⟨rfl, rfl, rfl, rfl, rfl, rfl, rfl⟩,
          ⟨rfl, rfl, rfl, rfl, rfl, rfl, rfl⟩,
          ⟨rfl, rfl, rfl, rfl, rfl, rfl, rfl⟩, ?_⟩
  intro x h1 h2
  unfold wrap32
  omega

/-- **C8** witness: within the `i32` range the wrapped sum is the
mathematical sum. -/
theorem claim_C8_unit_componentwise_amended_witness :
    wrap32 ((3 : Int) + 4) = 3 + 4 :=
  (claim_C8_unit_componentwise_amended default default 0).2.2.2
    (3 + 4) (by decide) (by decide)

/-- **C9** (code evaluation): `Unit::try_nthroot` with root index `0`
does not return a value for any unit: the remainder `exp % 0` computed by
`try_nthroot_inner` panics in Rust (modelled by `none`), contradicting
the claim that a `RootError` is returned whenever an exponent is not
evenly divisible. -/
theorem claim_C9_nthroot_zero_aborts (u : Unit) :
    u.try_nthroot 0 = none := by
  simp [Unit.try_nthroot, try_nthroot_inner]

/-- **C10**: every input consisting only of whitespace characters (space,
tab, newline, form feed) lexes to no token at all and parses to the
`InputIsEmpty` error — the same outcome as the empty string, not
`UnexpectedToken`. -/
theorem claim_C10_whitespace_input_is_empty (s : List Char)
    (h : ∀ c ∈ s, isSkipChar c = true) :
    from_str_complexf64 s = .error .InputIsEmpty := by
  have hdrop : s.dropWhile isSkipChar = [] := by
    induction s with
    | nil => rfl
    | cons c cs ih =>
        rw [List.dropWhile_cons]
        simp only [h c (List.mem_cons_self c cs), if_true]
        exact ih fun x hx => h x (List.mem_cons_of_mem c hx)
  have hlex : lexItems s = [] := by
    unfold lexItems
    exact lexGo_whitespace _ _ hdrop
  unfold from_str_complexf64
  rw [hlex]
  decide

/-- **C10** witness: an input of one space, one tab, one newline and one
form feed. -/
theorem claim_C10_whitespace_input_is_empty_witness :
    from_str_complexf64 " \t\n\x0c".toList = .error .InputIsEmpty :=
  claim_C10_whitespace_input_is_empty " \t\n\x0c".toList (by decide)

end DynQ
